import Mathlib

/-!
Shallow embedding of `genesis.py` (GenesisH0): a genesis-block generator that
builds a coinbase transaction and an 80-byte block header, then searches for a
nonce whose proof-of-work digest is below a difficulty target.

Modelling conventions:
- Byte strings are `List Nat` (each entry a byte value).
- Python's unbounded integers are `Nat`/`Int`; `struct.pack` range failures are
  modelled with `Option`.
- The external hash primitives (`hashlib.sha256`, `scrypt.hash`,
  `xcoin_hash.getPoWHash`, `x13_hash.getPoWHash`, `x15_hash.getPoWHash`) are
  opaque collaborators: they are parameters of type `List Nat → List Nat`
  bundled in `HashOracles`.  Availability of the conditionally imported X11 /
  X13 / X15 modules is a `ModuleAvail` parameter.
- `sys.exit(...)` and uncaught exceptions (struct.error, ValueError) are
  modelled as `Except.error` with an `ExitMsg` tag; either way the Python
  process terminates with a non-zero exit status.
- The unbounded `while True` mining loop is modelled with explicit fuel; fuel
  exhaustion is `Except.ok none` and is distinct from every behaviour of the
  real program.
- Python floats produced by `2 ** negative` in the difficulty computation are
  exact dyadic rationals here (the mantissa has at most 24 bits and the scale
  at most 2^-24, so the float arithmetic in the source is exact); the target is
  therefore a `ℚ`.
- Progress printing (`calculate_hashrate`) only writes to stdout and returns a
  timer value; it does not affect the search and is omitted.  The remaining
  prints are modelled as an event trace (`Ev`) so that "partial output" is
  observable.
-/

/-- Exit causes of the Python process, covering `sys.exit` messages and the
uncaught exceptions the source can raise. -/
inductive ExitMsg
  | unsupportedAlgorithm
  | missingModule (moduleName : String)
  | structError
  | valueError
deriving DecidableEq, Repr

/-- The five external hash primitives used by `genesis.py`, as opaque
collaborators (`hashlib.sha256`, `scrypt.hash(b, b, 1024, 1, 1, 32)`, and the
`getPoWHash` of `xcoin_hash` / `x13_hash` / `x15_hash`). -/
structure HashOracles where
  sha256 : List Nat → List Nat
  scryptHash : List Nat → List Nat
  x11 : List Nat → List Nat
  x13 : List Nat → List Nat
  x15 : List Nat → List Nat

/-- Which of the conditionally imported PoW modules can be imported. -/
structure ModuleAvail where
  x11 : Bool
  x13 : Bool
  x15 : Bool

/-- Stdout events of the program, in emission order: the input-script hex
printed by `create_input_script`, the block info of `print_block_info`, the
"Searching for genesis hash.." banner, and the final announcement. -/
inductive Ev
  | scriptHex
  | blockInfo
  | searching
  | announce
deriving DecidableEq, Repr

/-- Parsed command-line options (`get_args` in the source).  The pubkey is
already hex-decoded to bytes; the timestamp is the Python string, a sequence
of unicode code points. -/
structure Options where
  time : Nat
  timestamp : List Char
  nonce : Nat
  algorithm : String
  pubkey : List Nat
  value : Int
  bits : Nat

/-- The `supported_algorithms` list of `get_algorithm` (source line 57). -/
def supported_algorithms : List String := ["SHA256", "scrypt", "X11", "X13", "X15"]

/-- Model of `get_algorithm` (source lines 56-61): returns the algorithm name or exits
with an error for an unsupported name. -/
def get_algorithm (options : Options) : Except ExitMsg String :=
  if options.algorithm ∈ supported_algorithms then .ok options.algorithm
  else .error ExitMsg.unsupportedAlgorithm

/-- The little-endian base-256 digits of `n`, `k` bytes long (the byte string
`struct.pack` produces for an in-range value). -/
def leBytes (n k : Nat) : List Nat := (List.range k).map (fun i => n / 256 ^ i % 256)

/-- Model of `struct.pack("<I", n)`: 4 little-endian bytes, or a struct.error for a
value outside the unsigned 32-bit range. -/
def packUInt32le (n : Nat) : Option (List Nat) :=
  if n < 2 ^ 32 then some (leBytes n 4) else none

/-- Model of `struct.pack("<q", v)`: 8 little-endian two's-complement bytes, or a
struct.error for a value outside the signed 64-bit range. -/
def packInt64le (v : Int) : Option (List Nat) :=
  if -(2 ^ 63) ≤ v ∧ v < 2 ^ 63 then some (leBytes (v % 2 ^ 64).toNat 8) else none

/-- One unicode code point UTF-8 encoded, as `str.encode("utf-8")` does. -/
def utf8EncodeChar (c : Char) : List Nat :=
  let n := c.toNat
  if n < 128 then [n]
  else if n < 2048 then [192 + n / 64, 128 + n % 64]
  else if n < 65536 then [224 + n / 4096, 128 + n / 64 % 64, 128 + n % 64]
  else [240 + n / 262144, 128 + n / 4096 % 64, 128 + n / 64 % 64, 128 + n % 64]

/-- UTF-8 encoding of a Python string. -/
def utf8Encode (ts : List Char) : List Nat :=
  ts.foldr (fun c acc => utf8EncodeChar c ++ acc) []

/-- Base-16 digit count of `n`, computed with explicit fuel (any fuel of at
least the digit count gives the same answer, and `n` itself always
suffices). -/
def hexDigitsAux : Nat → Nat → Nat
  | 0, _ => 1
  | fuel + 1, n => if n < 16 then 1 else hexDigitsAux fuel (n / 16) + 1

/-- Number of hex digits the format string `"{:02x}".format n` emits: the
plain hex digit count, zero-padded to a minimum width of 2. -/
def hexDigits (n : Nat) : Nat := max 2 (hexDigitsAux n n)

/-- The big-endian base-256 digits of `n`, `k` bytes long: the bytes
`bytes.fromhex` reads from `2*k` hex digits of `n`. -/
def beBytes (n k : Nat) : List Nat :=
  (List.range k).map (fun i => n / 256 ^ (k - 1 - i) % 256)

/-- Model of `create_input_script` (source lines 63-74).  The script is built as a hex
string: the 14-digit prefix `04ffff001d0104`, an optional push-data marker
`4c` when `len(psz_timestamp) > 76` (a count of characters, Python `len` on a
`str`), the digits `"{:02x}".format (len psz_timestamp)` (2 digits for counts
below 256, more above — never truncated), then the hex of the UTF-8 bytes.
`bytes.fromhex` raises ValueError (`none` here) when the total number of hex
digits is odd, which happens exactly when the length field has an odd digit
count. -/
def create_input_script (psz_timestamp : List Char) : Option (List Nat) :=
  let L := psz_timestamp.length
  let d := hexDigits L
  if d % 2 = 1 then none
  else some ([0x04, 0xff, 0xff, 0x00, 0x1d, 0x01, 0x04]
    ++ (if 76 < L then [0x4c] else [])
    ++ beBytes L (d / 2)
    ++ utf8Encode psz_timestamp)

/-- The input script as C2 states it from the specification: the 7-byte
prefix, a `4c` marker iff the UTF-8 byte length exceeds 76, one length byte
equal to the UTF-8 byte length masked with 0xff, then the UTF-8 bytes.
(Definition written from the claim wording, for comparison with
`create_input_script`.) -/
def spec_input_script (psz_timestamp : List Char) : List Nat :=
  let u := utf8Encode psz_timestamp
  [0x04, 0xff, 0xff, 0x00, 0x1d, 0x01, 0x04]
  ++ (if 76 < u.length then [0x4c] else [])
  ++ [u.length % 256]
  ++ u

/-- Model of `create_output_script` (source lines 76-79): length byte 0x41, the
(already hex-decoded) pubkey bytes, and the CHECKSIG opcode 0xac. -/
def create_output_script (pubkey : List Nat) : List Nat :=
  [0x41] ++ pubkey ++ [0xac]

/-- Model of `create_transaction` (source lines 81-115), a Construct 2.x build of the
fixed-shape coinbase transaction.  Failure cases of the build are `none`: the
one-byte `input_script_len` field rejects scripts longer than 255 bytes, the
`Bytes("output_script", 0x43)` field rejects output scripts that are not
exactly 67 bytes, and `struct.pack("<q", value)` rejects values outside the
signed 64-bit range.  `prev_out_idx`, `sequence` and `locktime` are big-endian
(`UBInt32`) in the source; their values 0xFFFFFFFF, 0xFFFFFFFF and 0 make the
bytes independent of endianness. -/
def create_transaction (input_script output_script : List Nat) (value : Int) :
    Option (List Nat) :=
  if 255 < input_script.length then none
  else if output_script.length = 0x43 then
    match packInt64le value with
    | some out_value =>
      some (leBytes 1 4 ++ [1] ++ List.replicate 32 0 ++ [0xff, 0xff, 0xff, 0xff]
        ++ [input_script.length] ++ input_script ++ [0xff, 0xff, 0xff, 0xff] ++ [1]
        ++ out_value ++ [0x43] ++ output_script ++ [0, 0, 0, 0])
    | none => none
  else none

/-- Model of `create_block_header` (source lines 117-134): version `pack("<I", 1)`,
32 zero bytes of previous-block hash, the merkle root exactly as supplied,
then time, bits and nonce via `pack("<I", ·)`.  The `Bytes(·, 32)` field
rejects a merkle root that is not exactly 32 bytes. -/
def create_block_header (hash_merkle_root : List Nat) (time_value bits nonce : Nat) :
    Option (List Nat) :=
  if hash_merkle_root.length = 32 then
    match packUInt32le time_value, packUInt32le bits, packUInt32le nonce with
    | some t, some b, some n =>
      some (leBytes 1 4 ++ List.replicate 32 0 ++ hash_merkle_root ++ t ++ b ++ n)
    | _, _, _ => none
  else none

/-- The difficulty target of source line 142,
`(bits & 0xffffff) * 2 ** (8 * ((bits >> 24) - 3))`, as the exact rational
value Python computes: an unbounded integer when the exponent is at least 3,
and an exact dyadic float (`int * 2.0 ** negative`, exact because the mantissa
has at most 24 bits) otherwise. -/
def decode_bits (bits : Nat) : ℚ :=
  if 3 ≤ bits >>> 24 then
    (((bits &&& 0xffffff) * 2 ^ (8 * (bits >>> 24 - 3)) : ℕ) : ℚ)
  else
    mkRat ((bits &&& 0xffffff : ℕ) : ℤ) (2 ^ (8 * (3 - bits >>> 24)))

/-- Big-endian integer value of a byte string: `int(h.hex(), 16)`. -/
def hexVal (l : List Nat) : Nat := l.foldl (fun a b => a * 256 + b) 0

/-- Model of `is_genesis_hash` (source lines 183-185): `int(header_hash.hex(), 16) <
target`.  `int("", 16)` raises ValueError, so the empty byte string is an
error. -/
def is_genesis_hash (header_hash : List Nat) (target : ℚ) : Except ExitMsg Bool :=
  if header_hash = [] then .error ExitMsg.valueError
  else .ok (decide ((hexVal header_hash : ℚ) < target))

/-- Model of `generate_hashes_from_block` (source lines 156-181): the double-SHA256 of
the header, byte-reversed, is always computed; the PoW digest is chosen by
algorithm name, with a conditional import (`sys.exit` on failure, checked on
every call) for X11 / X13 / X15.  An unlisted algorithm name falls through
with `header_hash = b""`. -/
def generate_hashes_from_block (H : HashOracles) (A : ModuleAvail)
    (data_block : List Nat) (algorithm : String) :
    Except ExitMsg (List Nat × List Nat) :=
  let sha256_hash := (H.sha256 (H.sha256 data_block)).reverse
  if algorithm = "scrypt" then .ok (sha256_hash, (H.scryptHash data_block).reverse)
  else if algorithm = "SHA256" then .ok (sha256_hash, sha256_hash)
  else if algorithm = "X11" then
    if A.x11 then .ok (sha256_hash, (H.x11 data_block).reverse)
    else .error (ExitMsg.missingModule "xcoin_hash")
  else if algorithm = "X13" then
    if A.x13 then .ok (sha256_hash, (H.x13 data_block).reverse)
    else .error (ExitMsg.missingModule "x13_hash")
  else if algorithm = "X15" then
    if A.x15 then .ok (sha256_hash, (H.x15 data_block).reverse)
    else .error (ExitMsg.missingModule "x15_hash")
  else .ok (sha256_hash, [])

/-- The PoW digest `generate_hashes_from_block` produces for each algorithm
when it succeeds (second component of its result). -/
def pow_digest (H : HashOracles) (algorithm : String) (data_block : List Nat) :
    List Nat :=
  if algorithm = "scrypt" then (H.scryptHash data_block).reverse
  else if algorithm = "SHA256" then (H.sha256 (H.sha256 data_block)).reverse
  else if algorithm = "X11" then (H.x11 data_block).reverse
  else if algorithm = "X13" then (H.x13 data_block).reverse
  else if algorithm = "X15" then (H.x15 data_block).reverse
  else []

/-- The byte-reversed double SHA256 of a byte string (first component of
`generate_hashes_from_block`). -/
def sha256d (H : HashOracles) (data_block : List Nat) : List Nat :=
  (H.sha256 (H.sha256 data_block)).reverse

/-- The nonce replacement of source line 154,
`data_block[:-4] + struct.pack("<I", nonce)`: all but the last 4 bytes, then
the packed nonce; `none` is the struct.error for a nonce outside 32-bit
range. -/
def set_nonce (data_block : List Nat) (nonce : Nat) : Option (List Nat) :=
  (packUInt32le nonce).map (fun nb => data_block.take (data_block.length - 4) ++ nb)

/-- The `while True` search loop of `generate_hash` (source lines 144-154),
with explicit fuel.  `ok none` is fuel exhaustion; `ok (some (digest, nonce))`
is the found result — the PoW digest for X11/X13/X15 and the double-SHA256
digest otherwise; `error` is a process exit (missing module, ValueError on an
empty digest, or struct.error when the incremented nonce no longer packs). -/
def generate_hash_loop (H : HashOracles) (A : ModuleAvail) (algorithm : String)
    (target : ℚ) : Nat → List Nat → Nat → Except ExitMsg (Option (List Nat × Nat))
  | 0, _, _ => .ok none
  | fuel + 1, data_block, nonce =>
    match generate_hashes_from_block H A data_block algorithm with
    | .error e => .error e
    | .ok (sha256_hash, header_hash) =>
      match is_genesis_hash header_hash target with
      | .error e => .error e
      | .ok true =>
        if algorithm = "X11" ∨ algorithm = "X13" ∨ algorithm = "X15" then
          .ok (some (header_hash, nonce))
        else .ok (some (sha256_hash, nonce))
      | .ok false =>
        match set_nonce data_block (nonce + 1) with
        | none => .error ExitMsg.structError
        | some db => generate_hash_loop H A algorithm target fuel db (nonce + 1)

/-- Model of `generate_hash` (source lines 137-154): computes the target from `bits`
once, then runs the search loop from the supplied header and start nonce. -/
def generate_hash (fuel : Nat) (H : HashOracles) (A : ModuleAvail)
    (data_block : List Nat) (algorithm : String) (start_nonce bits : Nat) :
    Except ExitMsg (Option (List Nat × Nat)) :=
  generate_hash_loop H A algorithm (decode_bits bits) fuel data_block start_nonce

/-- The header with its trailing 4 nonce bytes set to the little-endian
encoding of `m` (the block of source line 154 at nonce `m`). -/
def header_at (hdr : List Nat) (m : Nat) : List Nat := hdr.take 76 ++ leBytes m 4

/-- Model of `main` (source lines 14-27), as an event trace plus outcome: algorithm
check, input/output script construction, transaction build, merkle root
(double SHA256 of the transaction, not reversed), block info printing, header
build, and the nonce search.  The input-script hex is printed inside
`create_input_script` before `bytes.fromhex` runs, so the `scriptHex` event
precedes even a ValueError there. -/
def mainRun (fuel : Nat) (H : HashOracles) (A : ModuleAvail) (opts : Options) :
    List Ev × Except ExitMsg (Option (List Nat × Nat)) :=
  match get_algorithm opts with
  | .error e => ([], .error e)
  | .ok algorithm =>
    match create_input_script opts.timestamp with
    | none => ([Ev.scriptHex], .error ExitMsg.valueError)
    | some input_script =>
      match create_transaction input_script (create_output_script opts.pubkey)
          opts.value with
      | none => ([Ev.scriptHex], .error ExitMsg.structError)
      | some tx =>
        let hash_merkle_root := H.sha256 (H.sha256 tx)
        match create_block_header hash_merkle_root opts.time opts.bits opts.nonce with
        | none => ([Ev.scriptHex, Ev.blockInfo], .error ExitMsg.structError)
        | some block_header =>
          match generate_hash fuel H A block_header algorithm opts.nonce opts.bits with
          | .error e => ([Ev.scriptHex, Ev.blockInfo, Ev.searching], .error e)
          | .ok none => ([Ev.scriptHex, Ev.blockInfo, Ev.searching], .ok none)
          | .ok (some r) =>
            ([Ev.scriptHex, Ev.blockInfo, Ev.searching, Ev.announce], .ok (some r))

/-! ## Helper lemmas -/

lemma leBytes_length (n k : Nat) : (leBytes n k).length = k := by
  simp [leBytes]

lemma leBytes_four (n : Nat) :
    leBytes n 4 = [n % 256, n / 256 % 256, n / 65536 % 256, n / 16777216 % 256] := by
  have h4 : List.range 4 = [0, 1, 2, 3] := rfl
  simp [leBytes, h4]

lemma take_front (pre l4 : List Nat) (h : l4.length = 4) :
    (pre ++ l4).take ((pre ++ l4).length - 4) = pre := by
  rw [List.length_append, h, Nat.add_sub_cancel]
  exact List.take_left pre l4

lemma set_nonce_eq (pre : List Nat) (old new : Nat) (h : new < 2 ^ 32) :
    set_nonce (pre ++ leBytes old 4) new = some (pre ++ leBytes new 4) := by
  unfold set_nonce packUInt32le
  rw [if_pos h]
  simp only [Option.map_some']
  rw [take_front pre (leBytes old 4) (leBytes_length old 4)]

lemma set_nonce_none (b : List Nat) (new : Nat) (h : ¬ new < 2 ^ 32) :
    set_nonce b new = none := by
  unfold set_nonce packUInt32le
  rw [if_neg h]
  rfl

lemma mem_supported (alg : String) (h : alg ∈ supported_algorithms) :
    alg = "SHA256" ∨ alg = "scrypt" ∨ alg = "X11" ∨ alg = "X13" ∨ alg = "X15" := by
  simpa [supported_algorithms] using h

lemma generate_hashes_from_block_eq (H : HashOracles) (A : ModuleAvail)
    (b : List Nat) (alg : String) (h : alg ∈ supported_algorithms)
    (h11 : alg = "X11" → A.x11 = true) (h13 : alg = "X13" → A.x13 = true)
    (h15 : alg = "X15" → A.x15 = true) :
    generate_hashes_from_block H A b alg = .ok (sha256d H b, pow_digest H alg b) := by
  rcases mem_supported alg h with h1 | h1 | h1 | h1 | h1 <;> subst h1
  · simp [generate_hashes_from_block, pow_digest, sha256d]
  · simp [generate_hashes_from_block, pow_digest, sha256d]
  · simp [generate_hashes_from_block, pow_digest, sha256d, h11 rfl]
  · simp [generate_hashes_from_block, pow_digest, sha256d, h13 rfl]
  · simp [generate_hashes_from_block, pow_digest, sha256d, h15 rfl]

lemma generate_hashes_from_block_ok (H : HashOracles) (A : ModuleAvail)
    (b : List Nat) (alg : String) (s hh : List Nat)
    (h : alg ∈ supported_algorithms)
    (hok : generate_hashes_from_block H A b alg = .ok (s, hh)) :
    s = sha256d H b ∧ hh = pow_digest H alg b := by
  rcases mem_supported alg h with h1 | h1 | h1 | h1 | h1 <;> subst h1
  · simp [generate_hashes_from_block, pow_digest, sha256d] at hok ⊢
    exact ⟨hok.1.symm, hok.2.symm⟩
  · simp [generate_hashes_from_block, pow_digest, sha256d] at hok ⊢
    exact ⟨hok.1.symm, hok.2.symm⟩
  · cases hA : A.x11 <;> simp [generate_hashes_from_block, pow_digest, sha256d, hA] at hok ⊢
    exact ⟨hok.1.symm, hok.2.symm⟩
  · cases hA : A.x13 <;> simp [generate_hashes_from_block, pow_digest, sha256d, hA] at hok ⊢
    exact ⟨hok.1.symm, hok.2.symm⟩
  · cases hA : A.x15 <;> simp [generate_hashes_from_block, pow_digest, sha256d, hA] at hok ⊢
    exact ⟨hok.1.symm, hok.2.symm⟩


lemma generate_hash_loop_ok_spec (H : HashOracles) (A : ModuleAvail) (alg : String)
    (target : ℚ) :
    ∀ (fuel : Nat) (pre : List Nat) (start : Nat) (d : List Nat) (n : Nat),
      alg ∈ supported_algorithms →
      start < 2 ^ 32 →
      generate_hash_loop H A alg target fuel (pre ++ leBytes start 4) start
        = .ok (some (d, n)) →
      start ≤ n ∧ n < 2 ^ 32 ∧
      ((hexVal (pow_digest H alg (pre ++ leBytes n 4)) : ℚ) < target) ∧
      (∀ m, start ≤ m → m < n →
        ¬ ((hexVal (pow_digest H alg (pre ++ leBytes m 4)) : ℚ) < target)) ∧
      d = (if alg = "X11" ∨ alg = "X13" ∨ alg = "X15"
           then pow_digest H alg (pre ++ leBytes n 4)
           else sha256d H (pre ++ leBytes n 4)) := by
  intro fuel
  induction fuel with
  | zero =>
    intro pre start d n hsup hstart h
    simp [generate_hash_loop] at h
  | succ f ih =>
    intro pre start d n hsup hstart h
    rw [generate_hash_loop] at h
    cases hres : generate_hashes_from_block H A (pre ++ leBytes start 4) alg with
    | error e =>
      simp only [hres] at h
      exact Except.noConfusion h
    | ok p =>
      obtain ⟨s, hh⟩ := p
      simp only [hres] at h
      obtain ⟨hs, hhh⟩ := generate_hashes_from_block_ok H A _ alg s hh hsup hres
      by_cases hemp : hh = []
      · have hig : is_genesis_hash hh target = .error ExitMsg.valueError := by
          unfold is_genesis_hash
          rw [if_pos hemp]
        rw [hig] at h
        simp only [] at h
        exact Except.noConfusion h
      · by_cases hlt : ((hexVal hh : ℚ) < target)
        · have hig : is_genesis_hash hh target = .ok true := by
            unfold is_genesis_hash
            rw [if_neg hemp, decide_eq_true hlt]
          rw [hig] at h
          simp only [] at h
          by_cases hX : alg = "X11" ∨ alg = "X13" ∨ alg = "X15"
          · rw [if_pos hX] at h
            simp only [Except.ok.injEq, Option.some.injEq, Prod.mk.injEq] at h
            obtain ⟨hdq, hnq⟩ := h
            subst hnq
            refine ⟨Nat.le_refl start, hstart, ?_, ?_, ?_⟩
            · rw [← hhh]; exact hlt
            · intro m hm1 hm2; omega
            · rw [if_pos hX, ← hhh]; exact hdq.symm
          · rw [if_neg hX] at h
            simp only [Except.ok.injEq, Option.some.injEq, Prod.mk.injEq] at h
            obtain ⟨hdq, hnq⟩ := h
            subst hnq
            refine ⟨Nat.le_refl start, hstart, ?_, ?_, ?_⟩
            · rw [← hhh]; exact hlt
            · intro m hm1 hm2; omega
            · rw [if_neg hX, ← hs]; exact hdq.symm
        · have hig : is_genesis_hash hh target = .ok false := by
            unfold is_genesis_hash
            rw [if_neg hemp, decide_eq_false hlt]
          rw [hig] at h
          simp only [] at h
          by_cases h32 : start + 1 < 2 ^ 32
          · rw [set_nonce_eq pre start (start + 1) h32] at h
            simp only [] at h
            obtain ⟨h1, h2, h3, h4, h5⟩ := ih pre (start + 1) d n hsup h32 h
            refine ⟨by omega, h2, h3, ?_, h5⟩
            intro m hm1 hm2
            rcases Nat.eq_or_lt_of_le hm1 with heq | hm
            · rw [← heq, ← hhh]; exact hlt
            · exact h4 m (by omega) hm2
          · rw [set_nonce_none _ _ h32] at h
            simp only [] at h
            exact Except.noConfusion h

lemma generate_hash_loop_exhaust (H : HashOracles) (A : ModuleAvail) (alg : String)
    (target : ℚ) :
    ∀ (fuel : Nat) (pre : List Nat) (start : Nat),
      alg ∈ supported_algorithms →
      (alg = "X11" → A.x11 = true) → (alg = "X13" → A.x13 = true) →
      (alg = "X15" → A.x15 = true) →
      start < 2 ^ 32 →
      2 ^ 32 - start ≤ fuel →
      (∀ m, start ≤ m → m < 2 ^ 32 →
        pow_digest H alg (pre ++ leBytes m 4) ≠ [] ∧
        ¬ ((hexVal (pow_digest H alg (pre ++ leBytes m 4)) : ℚ) < target)) →
      generate_hash_loop H A alg target fuel (pre ++ leBytes start 4) start
        = .error ExitMsg.structError := by
  intro fuel
  induction fuel with
  | zero =>
    intro pre start hsup h11 h13 h15 hstart hfuel hall
    omega
  | succ f ih =>
    intro pre start hsup h11 h13 h15 hstart hfuel hall
    rw [generate_hash_loop]
    rw [generate_hashes_from_block_eq H A _ alg hsup h11 h13 h15]
    simp only []
    obtain ⟨hne, hge⟩ := hall start (Nat.le_refl start) hstart
    have hig : is_genesis_hash (pow_digest H alg (pre ++ leBytes start 4)) target
        = .ok false := by
      unfold is_genesis_hash
      rw [if_neg hne, decide_eq_false hge]
    rw [hig]
    simp only []
    by_cases h32 : start + 1 < 2 ^ 32
    · rw [set_nonce_eq pre start (start + 1) h32]
      simp only []
      exact ih pre (start + 1) hsup h11 h13 h15 h32 (by omega)
        (fun m hm1 hm2 => hall m (by omega) hm2)
    · rw [set_nonce_none _ _ h32]

lemma hexDigitsAux_one (fuel n : Nat) (h : n < 16) : hexDigitsAux fuel n = 1 := by
  cases fuel with
  | zero => rfl
  | succ f => simp [hexDigitsAux, h]

lemma hexDigitsAux_two (fuel n : Nat) (h1 : 16 ≤ n) (h2 : n < 256) (hf : 1 ≤ fuel) :
    hexDigitsAux fuel n = 2 := by
  cases fuel with
  | zero => omega
  | succ f =>
    rw [hexDigitsAux, if_neg (by omega)]
    rw [hexDigitsAux_one f (n / 16) (by omega)]

lemma hexDigitsAux_3 (fuel n : Nat) (h1 : 256 ≤ n) (h2 : n < 4096) (hf : 2 ≤ fuel) :
    hexDigitsAux fuel n = 3 := by
  cases fuel with
  | zero => omega
  | succ f =>
    rw [hexDigitsAux, if_neg (by omega)]
    rw [hexDigitsAux_two f (n / 16) (by omega) (by omega) (by omega)]

lemma hexDigits_two (L : Nat) (h : L ≤ 255) : hexDigits L = 2 := by
  unfold hexDigits
  by_cases h16 : L < 16
  · rw [hexDigitsAux_one L L h16]; decide
  · rw [hexDigitsAux_two L L (by omega) (by omega) (by omega)]; decide

lemma hexDigits_three (L : Nat) (h1 : 256 ≤ L) (h2 : L ≤ 4095) : hexDigits L = 3 := by
  unfold hexDigits
  rw [hexDigitsAux_3 L L h1 (by omega) (by omega)]; decide

lemma beBytes_one (L : Nat) (h : L ≤ 255) : beBytes L 1 = [L] := by
  simp [beBytes, Nat.mod_eq_of_lt (show L < 256 by omega)]

/-! ## Claim theorems -/

/-- C2, counterexample: for the 39-character timestamp made of the 2-byte
character é (78 UTF-8 bytes), `create_input_script` succeeds but produces a
script different from the one the claim describes — the code keys the
push-data marker and the length byte on the character count (39), not on the
UTF-8 byte count (78). -/
theorem genesis_C2_cex :
    (create_input_script (List.replicate 39 'é')).isSome = true ∧
    create_input_script (List.replicate 39 'é') ≠
      some (spec_input_script (List.replicate 39 'é')) := by
  decide

/-- C2 (amended): the input script is the 7-byte prefix, then the push-data
marker `4c` iff the timestamp has more than 76 characters (a character count,
not a UTF-8 byte count), then a single length byte equal to the character
count when that count is at most 255, then the UTF-8 bytes.  Counts above 255
are not truncated: for counts 256..4095 the length field has 3 hex digits and
`bytes.fromhex` raises ValueError. -/
theorem genesis_C2_input_script_amended (ts : List Char) :
    (ts.length ≤ 255 → create_input_script ts =
      some ([0x04, 0xff, 0xff, 0x00, 0x1d, 0x01, 0x04]
        ++ (if 76 < ts.length then [0x4c] else [])
        ++ [ts.length]
        ++ utf8Encode ts)) ∧
    (256 ≤ ts.length → ts.length ≤ 4095 → create_input_script ts = none) := by
  constructor
  · intro h
    simp only [create_input_script, hexDigits_two ts.length h, beBytes_one ts.length h]
    norm_num
  · intro h1 h2
    simp only [create_input_script, hexDigits_three ts.length h1 h2]
    norm_num

/-- Witness for C2 (amended) at a 100-character ASCII timestamp. -/
theorem genesis_C2_input_script_amended_w :
    (List.replicate 100 'a').length ≤ 255 ∧
    create_input_script (List.replicate 100 'a') =
      some ([0x04, 0xff, 0xff, 0x00, 0x1d, 0x01, 0x04]
        ++ (if 76 < (List.replicate 100 'a').length then [0x4c] else [])
        ++ [(List.replicate 100 'a').length]
        ++ utf8Encode (List.replicate 100 'a')) :=
  ⟨by decide, (genesis_C2_input_script_amended (List.replicate 100 'a')).1 (by decide)⟩

/-- C5: the decoded difficulty target equals
`(bits & 0xffffff) * 2 ^ (8 * ((bits >> 24) - 3))` in unbounded integer
arithmetic (for the in-range exponents, at least 3, where that integer
expression is defined), and the two standard compact values decode to the
well-known targets `0xffff * 2^208` and `0x0ffff0 * 2^216`. -/
theorem genesis_C5_decode_bits (bits : Nat) (hb : bits < 2 ^ 32)
    (he : 3 ≤ bits >>> 24) :
    decode_bits bits = (((bits &&& 0xffffff) * 2 ^ (8 * (bits >>> 24 - 3)) : ℕ) : ℚ) ∧
    decode_bits 0x1d00ffff = ((0xffff * 2 ^ 208 : ℕ) : ℚ) ∧
    decode_bits 0x1e0ffff0 = ((0x0ffff0 * 2 ^ 216 : ℕ) : ℚ) := by
  refine ⟨?_, ?_, ?_⟩
  · unfold decode_bits
    rw [if_pos he]
  · decide
  · decide

/-- Witness for C5 at the SHA256d default bits value 0x1d00ffff. -/
theorem genesis_C5_decode_bits_w :
    decode_bits 0x1d00ffff
      = (((0x1d00ffff &&& 0xffffff) * 2 ^ (8 * (0x1d00ffff >>> 24 - 3)) : ℕ) : ℚ) ∧
    decode_bits 0x1d00ffff = ((0xffff * 2 ^ 208 : ℕ) : ℚ) ∧
    decode_bits 0x1e0ffff0 = ((0x0ffff0 * 2 ^ 216 : ℕ) : ℚ) :=
  genesis_C5_decode_bits 0x1d00ffff (by decide) (by decide)

/-- C6: for a 32-byte merkle root and 32-bit time, bits, nonce, the built
header is exactly version `1` as 4 little-endian bytes, 32 zero bytes of
previous-block hash, the merkle-root bytes exactly as supplied, then time,
bits and nonce as 4 little-endian bytes each — 80 bytes in total. -/
theorem genesis_C6_block_header (merkle : List Nat) (t b n : Nat)
    (hm : merkle.length = 32) (ht : t < 2 ^ 32) (hb : b < 2 ^ 32) (hn : n < 2 ^ 32) :
    create_block_header merkle t b n =
      some ([1, 0, 0, 0] ++ List.replicate 32 0 ++ merkle
        ++ [t % 256, t / 256 % 256, t / 65536 % 256, t / 16777216 % 256]
        ++ [b % 256, b / 256 % 256, b / 65536 % 256, b / 16777216 % 256]
        ++ [n % 256, n / 256 % 256, n / 65536 % 256, n / 16777216 % 256]) ∧
    (∀ out, create_block_header merkle t b n = some out → out.length = 80) := by
  have hone : leBytes 1 4 = [1, 0, 0, 0] := by decide
  have hhdr : create_block_header merkle t b n =
      some (leBytes 1 4 ++ List.replicate 32 0 ++ merkle
        ++ leBytes t 4 ++ leBytes b 4 ++ leBytes n 4) := by
    unfold create_block_header packUInt32le
    rw [if_pos hm, if_pos ht, if_pos hb, if_pos hn]
  constructor
  · rw [hhdr, hone, leBytes_four t, leBytes_four b, leBytes_four n]
  · intro out hout
    rw [hhdr] at hout
    injection hout with hout
    rw [← hout]
    simp [List.length_append, leBytes_length, hm]

/-- Witness for C6 at a concrete merkle root and the historical genesis
time / bits / nonce values. -/
theorem genesis_C6_block_header_w :
    create_block_header (List.replicate 32 7) 1231006505 0x1d00ffff 2083236893 =
      some ([1, 0, 0, 0] ++ List.replicate 32 0 ++ List.replicate 32 7
        ++ [1231006505 % 256, 1231006505 / 256 % 256, 1231006505 / 65536 % 256,
            1231006505 / 16777216 % 256]
        ++ [0x1d00ffff % 256, 0x1d00ffff / 256 % 256, 0x1d00ffff / 65536 % 256,
            0x1d00ffff / 16777216 % 256]
        ++ [2083236893 % 256, 2083236893 / 256 % 256, 2083236893 / 65536 % 256,
            2083236893 / 16777216 % 256]) ∧
    (∀ out, create_block_header (List.replicate 32 7) 1231006505 0x1d00ffff 2083236893
      = some out → out.length = 80) :=
  genesis_C6_block_header (List.replicate 32 7) 1231006505 0x1d00ffff 2083236893
    (by decide) (by decide) (by decide) (by decide)

set_option maxRecDepth 4000 in
/-- C7, counterexample: for a 256-byte input script the one-byte
`input_script_len` field cannot be built (`struct.error` in the Construct
build), so no transaction of length 127 + 256 is produced. -/
theorem genesis_C7_cex :
    create_transaction (List.replicate 256 0) (List.replicate 67 0) 5000000000
      = none := by
  decide

/-- C7 (amended): for every input script of at most 255 bytes, every 67-byte
output script and every signed-64-bit value, the encoded coinbase transaction
has the claimed layout — version 1 little-endian, input count 1, 32 zero
bytes, all-ones outpoint index, one script-length byte, the script, all-ones
sequence, output count 1, the 8-byte little-endian value, length byte 0x43,
the output script, and zero locktime — and its byte length is exactly
127 + len(S).  (For longer input scripts the build raises instead.) -/
theorem genesis_C7_transaction_amended (S outScript : List Nat) (v : Int)
    (hS : S.length ≤ 255) (hO : outScript.length = 67)
    (hv1 : -(2 ^ 63) ≤ v) (hv2 : v < 2 ^ 63) :
    create_transaction S outScript v =
      some ([1, 0, 0, 0] ++ [1] ++ List.replicate 32 0 ++ [0xff, 0xff, 0xff, 0xff]
        ++ [S.length] ++ S ++ [0xff, 0xff, 0xff, 0xff] ++ [1]
        ++ leBytes (v % 2 ^ 64).toNat 8 ++ [0x43] ++ outScript ++ [0, 0, 0, 0]) ∧
    (∀ out, create_transaction S outScript v = some out →
      out.length = 127 + S.length) := by
  have hone : leBytes 1 4 = [1, 0, 0, 0] := by decide
  have hmain : create_transaction S outScript v =
      some (leBytes 1 4 ++ [1] ++ List.replicate 32 0 ++ [0xff, 0xff, 0xff, 0xff]
        ++ [S.length] ++ S ++ [0xff, 0xff, 0xff, 0xff] ++ [1]
        ++ leBytes (v % 2 ^ 64).toNat 8 ++ [0x43] ++ outScript ++ [0, 0, 0, 0]) := by
    unfold create_transaction packInt64le
    rw [if_neg (by omega), if_pos hO, if_pos ⟨hv1, hv2⟩]
  constructor
  · rw [hmain, hone]
  · intro out hout
    rw [hmain] at hout
    injection hout with hout
    rw [← hout]
    simp [List.length_append, leBytes_length, hO]
    omega

/-- Witness for C7 (amended) at a 1-byte input script, an all-zero 67-byte
output script and the historical 50-coin value. -/
theorem genesis_C7_transaction_amended_w :
    create_transaction [7] (List.replicate 67 0) 5000000000 =
      some ([1, 0, 0, 0] ++ [1] ++ List.replicate 32 0 ++ [0xff, 0xff, 0xff, 0xff]
        ++ [List.length [7]] ++ [7] ++ [0xff, 0xff, 0xff, 0xff] ++ [1]
        ++ leBytes ((5000000000 : Int) % 2 ^ 64).toNat 8 ++ [0x43]
        ++ List.replicate 67 0 ++ [0, 0, 0, 0]) ∧
    (∀ out, create_transaction [7] (List.replicate 67 0) 5000000000 = some out →
      out.length = 127 + List.length [7]) :=
  genesis_C7_transaction_amended [7] (List.replicate 67 0) 5000000000
    (by decide) (by decide) (by decide) (by decide)

/-- C9: replacing the trailing 4 header bytes with the packed nonce leaves
the first 76 bytes of an 80-byte header unchanged, and the result is again 80
bytes, so only the last 4 bytes can differ. -/
theorem genesis_C9_set_nonce_frame (header : List Nat) (n : Nat) (out : List Nat)
    (hlen : header.length = 80) (hn : n < 2 ^ 32)
    (hout : set_nonce header n = some out) :
    out.take 76 = header.take 76 ∧ out.length = 80 := by
  unfold set_nonce packUInt32le at hout
  rw [if_pos hn] at hout
  simp only [Option.map_some'] at hout
  injection hout with hout
  rw [← hout, hlen]
  constructor
  · exact List.take_left' (by simp [hlen])
  · simp [List.length_append, leBytes_length, List.length_take, hlen]

set_option maxRecDepth 4000 in
/-- Witness for C9 at the all-zero 80-byte header and the historical genesis
nonce. -/
theorem genesis_C9_set_nonce_frame_w :
    (List.replicate 76 0 ++ leBytes 2083236893 4).take 76
        = (List.replicate 80 0 : List Nat).take 76 ∧
    (List.replicate 76 0 ++ leBytes 2083236893 4).length = 80 :=
  genesis_C9_set_nonce_frame (List.replicate 80 0) 2083236893
    (List.replicate 76 0 ++ leBytes 2083236893 4) (by decide) (by decide) (by decide)

/-- C8: whenever the required module is importable, `generate_hashes_from_block`
returns the byte-reversed double SHA256 of the header as its first component —
for every supported algorithm — and for the SHA256d algorithm the PoW digest
equals that same reversed double-SHA256 value. -/
theorem genesis_C8_sha256d_digest (H : HashOracles) (A : ModuleAvail)
    (b : List Nat) (alg : String) (hsup : alg ∈ supported_algorithms)
    (h11 : alg = "X11" → A.x11 = true) (h13 : alg = "X13" → A.x13 = true)
    (h15 : alg = "X15" → A.x15 = true) :
    generate_hashes_from_block H A b alg
      = .ok ((H.sha256 (H.sha256 b)).reverse, pow_digest H alg b) ∧
    (alg = "SHA256" → pow_digest H alg b = (H.sha256 (H.sha256 b)).reverse) := by
  constructor
  · exact generate_hashes_from_block_eq H A b alg hsup h11 h13 h15
  · intro h
    subst h
    simp [pow_digest]

/-- Witness for C8: concrete oracles, an all-zero header and the SHA256d
algorithm. -/
theorem genesis_C8_sha256d_digest_w :
    generate_hashes_from_block
      ⟨fun _ => [0], fun _ => [1], fun _ => [2], fun _ => [3], fun _ => [4]⟩
      ⟨true, true, true⟩ (List.replicate 80 0) "SHA256" = .ok ([0], [0]) ∧
    ("SHA256" = "SHA256" →
      pow_digest ⟨fun _ => [0], fun _ => [1], fun _ => [2], fun _ => [3], fun _ => [4]⟩
        "SHA256" (List.replicate 80 0) = [0]) :=
  genesis_C8_sha256d_digest
    ⟨fun _ => [0], fun _ => [1], fun _ => [2], fun _ => [3], fun _ => [4]⟩
    ⟨true, true, true⟩ (List.replicate 80 0) "SHA256"
    (by decide) (by decide) (by decide) (by decide)

/-- C1, counterexample: with the scrypt algorithm (a non-SHA256d algorithm),
a search that succeeds immediately returns the double-SHA256 digest `[0]`,
not the scrypt PoW digest `[1]` of the winning header, contradicting the
claim that every non-SHA256d algorithm returns the PoW digest. -/
theorem genesis_C1_cex :
    generate_hash 1
      ⟨fun _ => [0], fun _ => [1], fun _ => [0], fun _ => [0], fun _ => [0]⟩
      ⟨true, true, true⟩ (List.replicate 76 0 ++ [0, 0, 0, 0]) "scrypt" 0 50331653
      = .ok (some ([0], 0)) ∧
    ([0] : List Nat) ≠
      pow_digest ⟨fun _ => [0], fun _ => [1], fun _ => [0], fun _ => [0], fun _ => [0]⟩
        "scrypt" (header_at (List.replicate 76 0 ++ [0, 0, 0, 0]) 0) := by
  constructor
  · rfl
  · decide

/-- C1 (amended): when the search succeeds, the returned winning digest is
the PoW digest for the X11 / X13 / X15 algorithms, and the (reversed) double-
SHA256 digest for both SHA256d and scrypt. -/
theorem genesis_C1_winning_digest_amended (fuel : Nat) (H : HashOracles)
    (A : ModuleAvail) (alg : String) (hdr : List Nat) (start bits : Nat)
    (d : List Nat) (n : Nat)
    (hsup : alg ∈ supported_algorithms) (hlen : hdr.length = 80)
    (hstart : start < 2 ^ 32) (htail : hdr.drop 76 = leBytes start 4)
    (hrun : generate_hash fuel H A hdr alg start bits = .ok (some (d, n))) :
    ((alg = "X11" ∨ alg = "X13" ∨ alg = "X15") →
      d = pow_digest H alg (header_at hdr n)) ∧
    ((alg = "SHA256" ∨ alg = "scrypt") →
      d = sha256d H (header_at hdr n)) := by
  have hsplit : hdr = hdr.take 76 ++ leBytes start 4 := by
    rw [← htail]
    exact (List.take_append_drop 76 hdr).symm
  unfold generate_hash at hrun
  rw [hsplit] at hrun
  obtain ⟨h1, h2, h3, h4, h5⟩ := generate_hash_loop_ok_spec H A alg
    (decode_bits bits) fuel (hdr.take 76) start d n hsup hstart hrun
  constructor
  · intro hX
    rw [h5, if_pos hX]
    rfl
  · intro hS
    have hX : ¬ (alg = "X11" ∨ alg = "X13" ∨ alg = "X15") := by
      rcases hS with h | h <;> subst h <;> decide
    rw [h5, if_neg hX]
    rfl

/-- Witness for C1 (amended) at a concrete scrypt run that succeeds at the
start nonce. -/
theorem genesis_C1_winning_digest_amended_w :
    (("scrypt" = "X11" ∨ "scrypt" = "X13" ∨ "scrypt" = "X15") →
      ([0] : List Nat) =
        pow_digest ⟨fun _ => [0], fun _ => [1], fun _ => [0], fun _ => [0], fun _ => [0]⟩
          "scrypt" (header_at (List.replicate 76 0 ++ [0, 0, 0, 0]) 0)) ∧
    (("scrypt" = "SHA256" ∨ "scrypt" = "scrypt") →
      ([0] : List Nat) =
        sha256d ⟨fun _ => [0], fun _ => [1], fun _ => [0], fun _ => [0], fun _ => [0]⟩
          (header_at (List.replicate 76 0 ++ [0, 0, 0, 0]) 0)) :=
  genesis_C1_winning_digest_amended 1
    ⟨fun _ => [0], fun _ => [1], fun _ => [0], fun _ => [0], fun _ => [0]⟩
    ⟨true, true, true⟩ "scrypt" (List.replicate 76 0 ++ [0, 0, 0, 0]) 0 50331653
    [0] 0 (by decide) (by decide) (by decide) (by decide) rfl

/-- C4: if the search terminates returning nonce `n`, then the PoW digest of
the header at nonce `n`, read as a big-endian integer, is strictly below the
decoded target, and `n` is the least such nonce at or above the start nonce:
every nonce `m` with `start ≤ m < n` has a PoW digest at or above the
target. -/
theorem genesis_C4_minimal_nonce (fuel : Nat) (H : HashOracles) (A : ModuleAvail)
    (alg : String) (hdr : List Nat) (start bits : Nat) (d : List Nat) (n : Nat)
    (hsup : alg ∈ supported_algorithms) (hlen : hdr.length = 80)
    (hstart : start < 2 ^ 32) (htail : hdr.drop 76 = leBytes start 4)
    (hrun : generate_hash fuel H A hdr alg start bits = .ok (some (d, n))) :
    start ≤ n ∧
    ((hexVal (pow_digest H alg (header_at hdr n)) : ℚ) < decode_bits bits) ∧
    (∀ m, start ≤ m → m < n →
      ¬ ((hexVal (pow_digest H alg (header_at hdr m)) : ℚ) < decode_bits bits)) := by
  have hsplit : hdr = hdr.take 76 ++ leBytes start 4 := by
    rw [← htail]
    exact (List.take_append_drop 76 hdr).symm
  unfold generate_hash at hrun
  rw [hsplit] at hrun
  obtain ⟨h1, h2, h3, h4, h5⟩ := generate_hash_loop_ok_spec H A alg
    (decode_bits bits) fuel (hdr.take 76) start d n hsup hstart hrun
  exact ⟨h1, h3, h4⟩

/-- Witness for C4 at a concrete SHA256d run that succeeds at the start
nonce. -/
theorem genesis_C4_minimal_nonce_w :
    (0 : Nat) ≤ 0 ∧
    ((hexVal (pow_digest ⟨fun _ => [0], fun _ => [1], fun _ => [0], fun _ => [0], fun _ => [0]⟩
        "SHA256" (header_at (List.replicate 76 0 ++ [0, 0, 0, 0]) 0)) : ℚ)
      < decode_bits 50331653) ∧
    (∀ m, 0 ≤ m → m < 0 →
      ¬ ((hexVal (pow_digest ⟨fun _ => [0], fun _ => [1], fun _ => [0], fun _ => [0], fun _ => [0]⟩
        "SHA256" (header_at (List.replicate 76 0 ++ [0, 0, 0, 0]) m)) : ℚ)
          < decode_bits 50331653)) :=
  genesis_C4_minimal_nonce 1
    ⟨fun _ => [0], fun _ => [1], fun _ => [0], fun _ => [0], fun _ => [0]⟩
    ⟨true, true, true⟩ "SHA256" (List.replicate 76 0 ++ [0, 0, 0, 0]) 0 50331653
    [0] 0 (by decide) (by decide) (by decide) (by decide) rfl

/-- C10: when every nonce from the start nonce up to 2^32 - 1 fails the
target (and yields a nonempty digest), the loop does not wrap around to 0:
incrementing the nonce to 2^32 makes `struct.pack("<I", nonce)` raise, so the
search aborts with a struct.error instead of continuing. -/
theorem genesis_C10_no_wraparound (fuel : Nat) (H : HashOracles) (A : ModuleAvail)
    (alg : String) (hdr : List Nat) (start bits : Nat)
    (hsup : alg ∈ supported_algorithms)
    (h11 : alg = "X11" → A.x11 = true) (h13 : alg = "X13" → A.x13 = true)
    (h15 : alg = "X15" → A.x15 = true)
    (hlen : hdr.length = 80) (hstart : start < 2 ^ 32)
    (htail : hdr.drop 76 = leBytes start 4)
    (hfuel : 2 ^ 32 - start ≤ fuel)
    (hall : ∀ m, start ≤ m → m < 2 ^ 32 →
      pow_digest H alg (header_at hdr m) ≠ [] ∧
      ¬ ((hexVal (pow_digest H alg (header_at hdr m)) : ℚ) < decode_bits bits)) :
    generate_hash fuel H A hdr alg start bits = .error ExitMsg.structError := by
  have hsplit : hdr = hdr.take 76 ++ leBytes start 4 := by
    rw [← htail]
    exact (List.take_append_drop 76 hdr).symm
  unfold generate_hash
  rw [hsplit]
  exact generate_hash_loop_exhaust H A alg (decode_bits bits) fuel (hdr.take 76)
    start hsup h11 h13 h15 hstart hfuel (fun m hm1 hm2 => hall m hm1 hm2)

/-- Witness for C10: start nonce 2^32 - 1, a digest that never meets the
zero target, so the very first increment overflows the pack and the run ends
in a struct.error. -/
theorem genesis_C10_no_wraparound_w :
    generate_hash 1
      ⟨fun _ => [0], fun _ => [1], fun _ => [0], fun _ => [0], fun _ => [0]⟩
      ⟨true, true, true⟩ (List.replicate 76 0 ++ [255, 255, 255, 255]) "SHA256"
      4294967295 0 = .error ExitMsg.structError := by
  refine genesis_C10_no_wraparound 1
    ⟨fun _ => [0], fun _ => [1], fun _ => [0], fun _ => [0], fun _ => [0]⟩
    ⟨true, true, true⟩ "SHA256" (List.replicate 76 0 ++ [255, 255, 255, 255])
    4294967295 0 (by decide) (by decide) (by decide) (by decide) (by decide)
    (by decide) (by decide) (by decide) ?_
  intro m hm1 hm2
  constructor
  · show ([0] : List Nat) ≠ []
    decide
  · show ¬ ((hexVal [0] : ℚ) < decode_bits 0)
    decide

/-- C3, counterexample: a configuration selecting X11 with the `xcoin_hash`
module absent does exit non-zero, but only inside the first search-loop
iteration: the input-script hex, the block info and the search banner have
already been printed, so there is partial output and the search has begun. -/
theorem genesis_C3_cex :
    mainRun 1
      ⟨fun _ => List.replicate 32 0, fun _ => [1], fun _ => [0], fun _ => [0], fun _ => [0]⟩
      ⟨false, true, true⟩
      ⟨1231006505, ['a'], 0, "X11", List.replicate 65 4, 5000000000, 0x1e0ffff0⟩
      = ([Ev.scriptHex, Ev.blockInfo, Ev.searching],
         .error (ExitMsg.missingModule "xcoin_hash")) ∧
    [Ev.scriptHex, Ev.blockInfo, Ev.searching] ≠ ([] : List Ev) := by
  exact ⟨rfl, by decide⟩

/-- C3 (amended): an unsupported algorithm name fails at startup, before any
output, with a non-zero exit.  A missing X11 / X13 / X15 backend also exits
non-zero before any nonce is found, but the check happens inside the first
search-loop iteration: the input-script hex, the block info and the
search-start banner are already printed — partial output exists — rather
than at configuration time. -/
theorem genesis_C3_failfast_amended (fuel : Nat) (H : HashOracles)
    (A : ModuleAvail) (opts : Options) (s tx hdr : List Nat) :
    (opts.algorithm ∉ supported_algorithms →
      mainRun fuel H A opts = ([], .error ExitMsg.unsupportedAlgorithm)) ∧
    (0 < fuel →
      create_input_script opts.timestamp = some s →
      create_transaction s (create_output_script opts.pubkey) opts.value = some tx →
      create_block_header (H.sha256 (H.sha256 tx)) opts.time opts.bits opts.nonce
        = some hdr →
      ((opts.algorithm = "X11" → A.x11 = false →
        mainRun fuel H A opts = ([Ev.scriptHex, Ev.blockInfo, Ev.searching],
          .error (ExitMsg.missingModule "xcoin_hash"))) ∧
       (opts.algorithm = "X13" → A.x13 = false →
        mainRun fuel H A opts = ([Ev.scriptHex, Ev.blockInfo, Ev.searching],
          .error (ExitMsg.missingModule "x13_hash"))) ∧
       (opts.algorithm = "X15" → A.x15 = false →
        mainRun fuel H A opts = ([Ev.scriptHex, Ev.blockInfo, Ev.searching],
          .error (ExitMsg.missingModule "x15_hash"))))) := by
  constructor
  · intro h
    unfold mainRun get_algorithm
    rw [if_neg h]
  · intro hf hs htx hhdr
    obtain ⟨f, rfl⟩ : ∃ f, fuel = f + 1 := ⟨fuel - 1, by omega⟩
    refine ⟨?_, ?_, ?_⟩
    · intro halg hA
      have hmem : opts.algorithm ∈ supported_algorithms := by
        rw [halg]; decide
      have hgen : generate_hash (f + 1) H A hdr opts.algorithm opts.nonce opts.bits
          = .error (ExitMsg.missingModule "xcoin_hash") := by
        have hblk : generate_hashes_from_block H A hdr opts.algorithm
            = .error (ExitMsg.missingModule "xcoin_hash") := by
          rw [halg]
          simp [generate_hashes_from_block, hA]
        unfold generate_hash
        rw [generate_hash_loop, hblk]
      unfold mainRun get_algorithm
      rw [if_pos hmem]
      simp only []
      rw [hs]
      simp only []
      rw [htx]
      simp only []
      rw [hhdr]
      simp only []
      rw [hgen]
    · intro halg hA
      have hmem : opts.algorithm ∈ supported_algorithms := by
        rw [halg]; decide
      have hgen : generate_hash (f + 1) H A hdr opts.algorithm opts.nonce opts.bits
          = .error (ExitMsg.missingModule "x13_hash") := by
        have hblk : generate_hashes_from_block H A hdr opts.algorithm
            = .error (ExitMsg.missingModule "x13_hash") := by
          rw [halg]
          simp [generate_hashes_from_block, hA]
        unfold generate_hash
        rw [generate_hash_loop, hblk]
      unfold mainRun get_algorithm
      rw [if_pos hmem]
      simp only []
      rw [hs]
      simp only []
      rw [htx]
      simp only []
      rw [hhdr]
      simp only []
      rw [hgen]
    · intro halg hA
      have hmem : opts.algorithm ∈ supported_algorithms := by
        rw [halg]; decide
      have hgen : generate_hash (f + 1) H A hdr opts.algorithm opts.nonce opts.bits
          = .error (ExitMsg.missingModule "x15_hash") := by
        have hblk : generate_hashes_from_block H A hdr opts.algorithm
            = .error (ExitMsg.missingModule "x15_hash") := by
          rw [halg]
          simp [generate_hashes_from_block, hA]
        unfold generate_hash
        rw [generate_hash_loop, hblk]
      unfold mainRun get_algorithm
      rw [if_pos hmem]
      simp only []
      rw [hs]
      simp only []
      rw [htx]
      simp only []
      rw [hhdr]
      simp only []
      rw [hgen]

/-- Witness for C3 (amended): the X11-missing branch at a concrete
configuration with a one-character timestamp. -/
theorem genesis_C3_failfast_amended_w :
    mainRun 1
      ⟨fun _ => List.replicate 32 0, fun _ => [1], fun _ => [0], fun _ => [0], fun _ => [0]⟩
      ⟨false, true, true⟩
      ⟨1231006505, ['a'], 0, "X11", List.replicate 65 4, 5000000000, 0x1e0ffff0⟩
      = ([Ev.scriptHex, Ev.blockInfo, Ev.searching],
         .error (ExitMsg.missingModule "xcoin_hash")) :=
  ((genesis_C3_failfast_amended 1
      ⟨fun _ => List.replicate 32 0, fun _ => [1], fun _ => [0], fun _ => [0], fun _ => [0]⟩
      ⟨false, true, true⟩
      ⟨1231006505, ['a'], 0, "X11", List.replicate 65 4, 5000000000, 0x1e0ffff0⟩
      [4, 255, 255, 0, 29, 1, 4, 1, 97]
      ((create_transaction [4, 255, 255, 0, 29, 1, 4, 1, 97]
        (create_output_script (List.replicate 65 4)) 5000000000).getD [])
      ((create_block_header (List.replicate 32 0) 1231006505 0x1e0ffff0 0).getD [])).2
    (by decide) (by decide) (by decide) (by decide)).1 rfl rfl
